import Mathlib

/-!
Shallow embedding of `susnux/npm-audit-action` (`src/main.ts` together with the
type declarations of `npm-audit.d.ts`), and proofs about the claims of its
specification.

Conventions of the embedding:
* JS strings are Lean `String`s (operated on through their `List Char` data);
  machine integers appearing here are only counters, modeled as `Nat`.
* JS numbers that can carry a decimal point (CVSS scores) are modeled by
  `JsNumber`, an explicit scaled integer `mantissa / 10 ^ exponent`; JS
  truthiness of such a number is `mantissa ≠ 0`.
* The callback passed to `exec` is modeled by a pure function from the
  observed process outcome (`ExecResult`) to the emitted log entries plus the
  promise resolution, the latter as `Except` (rejection carries the error).
* Log side effects (`core.debug` / `core.info`) are modeled by returning the
  list of emitted `LogEntry` values alongside the result.
-/

namespace NpmAuditAction

/-- Log levels used by the action (`core.debug` and `core.info`). -/
inductive LogLevel where
  | debug
  | info
deriving DecidableEq, Repr

/-- One emitted log line. -/
structure LogEntry where
  level : LogLevel
  msg : String
deriving DecidableEq, Repr

/-! ## Data model, from `src/npm-audit.d.ts` -/

/-- `type Severity = 'info' | 'low' | 'moderate' | 'high' | 'critical'`. -/
inductive Severity where
  | info
  | low
  | moderate
  | high
  | critical
deriving DecidableEq, Repr

/-- The runtime string value of a `Severity` (the d.ts union is of string literals). -/
def severityStr : Severity → String
  | Severity.info => "info"
  | Severity.low => "low"
  | Severity.moderate => "moderate"
  | Severity.high => "high"
  | Severity.critical => "critical"

/-- A JS number restricted to the finite decimal values CVSS scores take:
the value is `mantissa / 10 ^ exponent` (e.g. 6.5 is `⟨65, 1⟩`).
JS truthiness of the number is `mantissa ≠ 0`. -/
structure JsNumber where
  mantissa : Int
  exponent : Nat
deriving DecidableEq, Repr

/-- Drop the trailing zero digits of a fraction part. -/
def dropTrailingZeros (l : List Char) : List Char :=
  (l.reverse.dropWhile (fun c => c == '0')).reverse

/-- JS `Number` to string for the finite decimal values of `JsNumber`
(as produced by template-literal interpolation, e.g. `6.5`, `0`, `7`). -/
def jsNumToString (x : JsNumber) : String :=
  let sign := if x.mantissa < 0 then "-" else ""
  let ds := Nat.toDigits 10 x.mantissa.natAbs
  let padded := List.replicate (x.exponent + 1 - ds.length) '0' ++ ds
  let ip := padded.take (padded.length - x.exponent)
  let fp := dropTrailingZeros (padded.drop (padded.length - x.exponent))
  if fp = [] then sign ++ String.mk ip
  else sign ++ String.mk ip ++ "." ++ String.mk fp

/-- `interface VulnerabilityReport` of `npm-audit.d.ts`.
`cvss` is optional there; `title` is a string that may be empty at runtime. -/
structure VulnerabilityReport where
  source : Nat
  name : String
  dependency : String
  title : String
  url : String
  severity : Severity
  cvss : Option JsNumber
  range : String
deriving DecidableEq, Repr

/-- An entry of a vulnerability's `via` list:
`(VulnerabilityReport | string)[]` in the d.ts. -/
abbrev ViaEntry := Sum String VulnerabilityReport

/-- `interface Vulnerability` of `npm-audit.d.ts`. -/
structure Vulnerability where
  name : String
  severity : Severity
  isDirect : Bool
  fixAvailable : Bool
  via : List ViaEntry
  range : String
  nodes : List String
deriving DecidableEq, Repr

/-- Severity counters of `metadata.vulnerabilities`
(`Record<Severity | 'total', number>`). -/
structure SeverityCounts where
  info : Nat
  low : Nat
  moderate : Nat
  high : Nat
  critical : Nat
  total : Nat
deriving DecidableEq, Repr, Inhabited

/-- Dependency counters of `metadata.dependencies`. -/
structure DependencyCounts where
  prod : Nat
  dev : Nat
  optional : Nat
  peer : Nat
  peerOptional : Nat
  total : Nat
deriving DecidableEq, Repr, Inhabited

/-- The `metadata` field of an `NPMAudit` (unused by the formatter). -/
structure AuditMetadata where
  vulnerabilities : SeverityCounts
  dependencies : DependencyCounts
deriving DecidableEq, Repr, Inhabited

/-- `interface NPMAudit`. The JS object `vulnerabilities` is a string-keyed
record; it is modeled as an association list in object-insertion order, which
is the iteration order `Object.values` observes. -/
structure NPMAudit where
  auditReportVersion : Nat
  vulnerabilities : List (String × Vulnerability)
  metadata : AuditMetadata
deriving DecidableEq, Repr

/-- `interface NPMAuditFix`: the envelope emitted by `npm audit --json fix`. -/
structure NPMAuditFix where
  added : Nat
  removed : Nat
  changed : Nat
  audited : Nat
  funding : Nat
  audit : NPMAudit
deriving DecidableEq, Repr

/-! ## CSS.escape (the `css.escape` polyfill of the CSSOM serialization) -/

/-- Lowercase-hex code-point escape `\xx ` used by `CSS.escape`. -/
def cssHexEscape (c : Char) : String :=
  "\\" ++ String.mk (Nat.toDigits 16 c.toNat) ++ " "

/-- Characters `CSS.escape` passes through unescaped: code points at or above
U+0080, `-`, `_`, and ASCII digits and letters. -/
def cssCharOk (c : Char) : Bool :=
  decide (0x80 ≤ c.toNat) || c == '-' || c == '_' || c.isDigit || c.isUpper || c.isLower

/-- Serialization of one character at position `idx` of a string of length
`len` whose first character is `-` iff `firstIsDash`, per `CSS.escape`. -/
def cssEscapeCharAt (c : Char) (idx : Nat) (firstIsDash : Bool) (len : Nat) : String :=
  if c = Char.ofNat 0 then String.mk [Char.ofNat 0xFFFD]
  else if (decide (1 ≤ c.toNat) && decide (c.toNat ≤ 0x1F)) || c.toNat == 0x7F then cssHexEscape c
  else if idx == 0 && c.isDigit then cssHexEscape c
  else if idx == 1 && c.isDigit && firstIsDash then cssHexEscape c
  else if idx == 0 && c == '-' && len == 1 then "\\-"
  else if cssCharOk c then String.mk [c]
  else "\\" ++ String.mk [c]

/-- Character-by-character worker for `cssEscape`, tracking the position. -/
def cssEscapeGo (firstIsDash : Bool) (len : Nat) : Nat → List Char → String
  | _, [] => ""
  | i, c :: rest => cssEscapeCharAt c i firstIsDash len ++ cssEscapeGo firstIsDash len (i + 1) rest

/-- `CSS.escape`. -/
def cssEscape (s : String) : String :=
  cssEscapeGo (s.data.head? == some '-') s.data.length 0 s.data

/-! ## Scanner invocation: `runNpmAudit` -/

/-- The opening-brace character, `U+007B`. -/
def lbrace : Char := Char.ofNat 123

/-- The outcome `exec` reports to its callback: `(error, stdout, stderr)`,
with `error` carrying the error message when the tool failed. -/
structure ExecResult where
  error : Option String
  stdout : String
  stderr : String
deriving DecidableEq, Repr

/-- Index of the first occurrence of a character, `none` when absent. -/
def chIndexOf? : List Char → Char → Option Nat
  | [], _ => none
  | a :: l, c => if a = c then some 0 else (chIndexOf? l c).map Nat.succ

/-- JS `String.prototype.indexOf` for a single character: `-1` when absent. -/
def jsIndexOf (s : String) (c : Char) : Int :=
  match chIndexOf? s.data c with
  | some n => (n : Int)
  | none => -1

/-- JS `String.prototype.slice` with one argument: a negative start counts
from the end (clamped at 0), a non-negative start is clamped at the length. -/
def jsSlice (s : String) (start : Int) : String :=
  let len : Int := (s.data.length : Int)
  let b : Nat := (if start < 0 then max (len + start) 0 else min start len).toNat
  String.mk (s.data.drop b)

/-- The stdout transformation of `runNpmAudit`:
`stdout.slice(stdout.indexOf('{'))`. -/
def stripToJson (stdout : String) : String :=
  jsSlice stdout (jsIndexOf stdout lbrace)

/-- `runNpmAudit`, as the function of the observed process outcome: emits the
initial debug line, logs non-empty stderr with the fixed `[npm audit]: ` tag,
rejects with the error when the tool failed, and otherwise resolves with the
stdout stripped to the first `{`. The single `exec` call of the source is the
single `ExecResult` consumed here (no retry). -/
def runNpmAudit (fix : Bool) (res : ExecResult) : List LogEntry × Except String String :=
  let runLog : LogEntry := ⟨LogLevel.debug, "Running npm audit " ++ (if fix then "fix" else "") ++ "…"⟩
  let stderrLogs : List LogEntry :=
    if res.stderr = "" then [] else [⟨LogLevel.debug, "[npm audit]: " ++ res.stderr⟩]
  match res.error with
  | some e => (runLog :: stderrLogs, Except.error e)
  | none => (runLog :: stderrLogs, Except.ok (stripToJson res.stdout))

/-! ## Report formatter: `formatNpmAuditOutput` -/

/-- `Object.values(data.vulnerabilities)`, in insertion order. -/
def vulValues (data : NPMAudit) : List Vulnerability :=
  data.vulnerabilities.map Prod.snd

/-- `isFixable`: truthiness of the `fixAvailable` field. -/
def isFixable (v : Vulnerability) : Bool :=
  v.fixAvailable

/-- `isReport`: `typeof data === 'object' && !!data.title` — a via entry is a
structured report iff it is the non-string alternative with non-empty title. -/
def isReport : ViaEntry → Bool
  | Sum.inl _ => false
  | Sum.inr r => r.title != ""

/-- The string a via entry interpolates to inside a template literal: a string
entry is itself, a structured object coerces to `[object Object]`. -/
def viaToJsString : ViaEntry → String
  | Sum.inl s => s
  | Sum.inr _ => "[object Object]"

/-- One `Updated dependencies` bullet:
`* [name](#user-content-escaped)\n`. -/
def updatedDepsLine (vul : Vulnerability) : String :=
  "* [" ++ vul.name ++ "](#user-content-" ++ cssEscape vul.name ++ ")\n"

/-- One bullet of the `Caused by vulnerable dependency` sub-list (the source
iterates `vul.via as string[]`, i.e. every entry, coerced to a string). -/
def renderVia (v : ViaEntry) : String :=
  "  * [" ++ viaToJsString v ++ "](#user-content-" ++ cssEscape (viaToJsString v) ++ ")\n"

/-- Description lines produced from a found structured report: title, bolded
severity (with the warning glyph for `critical`), the CVSS score in
parentheses when `info.cvss?.score` is truthy, and the reference link. -/
def renderInfo (info : VulnerabilityReport) : String :=
  let cvss :=
    match info.cvss with
    | some c => if c.mantissa != 0 then " (CVSS " ++ jsNumToString c ++ ")" else ""
    | none => ""
  "* " ++ info.title ++ "\n" ++
  "* Severity: **" ++ severityStr info.severity ++ "**" ++
    (if info.severity = Severity.critical then " 🚨" else "") ++ cvss ++ "\n" ++
  "* Reference: [" ++ info.url ++ "](" ++ info.url ++ ")\n"

/-- The level-3 heading of one fixed vulnerability, with its self anchor. -/
def vulHeader (vul : Vulnerability) : String :=
  "\n### " ++ vul.name ++ " <a href=\"#user-content-" ++ cssEscape vul.name ++
    "\" id=\"" ++ cssEscape vul.name ++ "\">#</a>\n"

/-- The trailing lines of one fixed vulnerability: affected versions and the
package-usage sub-list. -/
def vulTail (vul : Vulnerability) : String :=
  "* Affected versions: " ++ vul.range ++ "\n" ++
  "* Package usage:\n" ++
  String.join (vul.nodes.map (fun node => "  * `" ++ node ++ "`\n"))

/-- The `Caused by vulnerable dependency` block of the no-report branch. -/
def causedByBlock (via : List ViaEntry) : String :=
  "* Caused by vulnerable dependency:\n" ++ String.join (via.map renderVia)

/-- One entry of the `Fixed vulnerabilities` section: the loop body of the
source, with `vul.via.find(isReport)` selecting the descriptive source. -/
def renderVul (vul : Vulnerability) : String :=
  vulHeader vul ++
  (match vul.via.find? isReport with
   | some (Sum.inr r) => renderInfo r
   | _ => causedByBlock vul.via) ++
  vulTail vul

/-- The summary line and `Updated dependencies` heading appended right after
the report heading in the fixable branch (one template literal in the source). -/
def summaryBlock (data : NPMAudit) : String :=
  "\nThis audit fix resolves " ++ toString ((vulValues data).filter isFixable).length ++
  " of the total " ++ toString (vulValues data).length ++
  " vulnerabilities found in your project.\n\n## Updated dependencies\n"

/-- The final value of the local accumulator `output` in the branch with at
least one fixable vulnerability. The source builds exactly this string and
then reaches the end of the function without a `return` statement, so this
value is computed but never returned (see `formatNpmAuditOutput`). -/
def formatBody (data : NPMAudit) : String :=
  let fixable := (vulValues data).filter isFixable
  "# Audit report\n" ++ summaryBlock data ++
  String.join (fixable.map updatedDepsLine) ++
  "## Fixed vulnerabilities\n" ++
  String.join (fixable.map renderVul)

/-- `formatNpmAuditOutput`: emits the `Found N fixable issues` info line; with
no fixable vulnerability it returns the `No fixable problems found` report;
otherwise the source accumulates `formatBody data` into `output` but falls off
the end of the function without returning it, so the async function resolves
with `undefined`, modeled as `none`. -/
def formatNpmAuditOutput (data : NPMAudit) : List LogEntry × Option String :=
  let fixable := (vulValues data).filter isFixable
  let logs : List LogEntry := [⟨LogLevel.info, "Found " ++ toString fixable.length ++ " fixable issues"⟩]
  if fixable.length = 0 then
    (logs, some ("# Audit report\n" ++
      ("No fixable problems found (" ++ toString (vulValues data).length ++ " unfixable)")))
  else
    (logs, none)

/-! ## Orchestrator pieces: `run` -/

/-- The three integer outputs and the markdown output `run` sets. -/
structure RunOutputs where
  issuesTotal : Nat
  issuesFixable : Nat
  issuesUnfixable : Nat
  markdown : Option String
deriving DecidableEq, Repr

/-- The parsed scanner output: a bare audit result or the fix envelope.
The source discriminates with `isNPMAuditFix`, i.e. `'audit' in data`. -/
abbrev ParsedData := Sum NPMAudit NPMAuditFix

/-- `isNPMAuditFix`: `'audit' in data` — only the envelope has that field. -/
def isNPMAuditFix : ParsedData → Bool
  | Sum.inl _ => false
  | Sum.inr _ => true

/-- The envelope-unwrapping step of `run`: for a fix envelope, log the four
package-count info lines and continue with the inner audit result. -/
def unwrapAndLog : ParsedData → List LogEntry × NPMAudit
  | Sum.inl a => ([], a)
  | Sum.inr f =>
    ([⟨LogLevel.info, "[npm audit] Added   " ++ toString f.added ++ " packages"⟩,
      ⟨LogLevel.info, "[npm audit] Removed " ++ toString f.removed ++ " packages"⟩,
      ⟨LogLevel.info, "[npm audit] Changed " ++ toString f.changed ++ " packages"⟩,
      ⟨LogLevel.info, "[npm audit] Audited " ++ toString f.audited ++ " packages"⟩], f.audit)

/-- The output computation of `run` on the (unwrapped) audit result:
`issues.length`, `issues.filter(isFixable).length`, their difference, and the
value resolved by `formatNpmAuditOutput`. -/
def computeOutputs (data : NPMAudit) : RunOutputs :=
  let issues := vulValues data
  let totalIssues := issues.length
  let fixableIssues := (issues.filter isFixable).length
  { issuesTotal := totalIssues
    issuesFixable := fixableIssues
    issuesUnfixable := totalIssues - fixableIssues
    markdown := (formatNpmAuditOutput data).2 }

/-- Logs and outputs `run` produces from the parsed scanner output. -/
def runOnParsed (d : ParsedData) : List LogEntry × RunOutputs :=
  ((unwrapAndLog d).1, computeOutputs (unwrapAndLog d).2)

/-! ## Output-path guard of `run` (lines 129–136 of `src/main.ts`) -/

/-- Split a character list at `/` separators. -/
def splitOnSlash : List Char → List (List Char)
  | [] => [[]]
  | c :: rest =>
    match splitOnSlash rest with
    | [] => [[]]
    | seg :: segs => if c = '/' then [] :: seg :: segs else (c :: seg) :: segs

/-- One normalization step of posix path resolution: skip empty and `.`
segments, let `..` pop the last kept segment, keep everything else. -/
def normStep (stack : List (List Char)) (part : List Char) : List (List Char) :=
  if part = [] ∨ part = ['.'] then stack
  else if part = ['.', '.'] then stack.dropLast
  else stack ++ [part]

/-- Node's posix `path.resolve(p)` against the current working directory
`cwd` (assumed absolute): an absolute `p` is normalized on its own, a
relative one is joined to `cwd` first. -/
def resolvePathJs (cwd p : String) : String :=
  let baseChars := if p.data.head? = some '/' then p.data else cwd.data ++ '/' :: p.data
  String.mk ('/' :: List.intercalate ['/'] ((splitOnSlash baseChars).foldl normStep []))

/-- JS `String.prototype.startsWith`. -/
def jsStartsWith (s pre : String) : Bool :=
  pre.data.isPrefixOf s.data

/-- What the tail of `run` does about the output file. -/
inductive WriteOutcome where
  | skipped
  | failed (msg : String)
  | written (path : String) (content : String)
deriving DecidableEq, Repr

/-- The output-path block of `run`: skipped for an empty (falsy) configured
path; otherwise the resolved path is accepted iff it starts with the resolved
workspace-root string, and on acceptance the formatted output is written
there verbatim. -/
def writeReport (workspace cwd outputPath formatted : String) : WriteOutcome :=
  if outputPath = "" then WriteOutcome.skipped
  else if jsStartsWith (resolvePathJs cwd outputPath) (resolvePathJs cwd workspace) then
    WriteOutcome.written (resolvePathJs cwd outputPath) formatted
  else WriteOutcome.failed "Invalid \"output-path\""

/-- Path containment in the file-system sense: `p` is the root itself or
lies strictly below it (the spec's "contained within the workspace root"). -/
def pathContained (root p : String) : Bool :=
  p == root || (root ++ "/").data.isPrefixOf p.data

/-- Every list leads itself. -/
theorem isPrefixOf_refl (l : List Char) : l.isPrefixOf l = true := by
  induction l with
  | nil => rfl
  | cons a t ih => simp [List.isPrefixOf, ih]

/-- A leading run stays a leading run after shortening it on the right. -/
theorem isPrefixOf_append_left : ∀ (l1 l2 l3 : List Char),
    (l1 ++ l2).isPrefixOf l3 = true → l1.isPrefixOf l3 = true
  | [], _, l3, _ => by cases l3 <;> rfl
  | _ :: _, _, [], h => by simp [List.isPrefixOf] at h
  | a :: t1, l2, b :: t3, h => by
    simp only [List.cons_append, List.isPrefixOf, Bool.and_eq_true, beq_iff_eq] at h ⊢
    exact ⟨h.1, isPrefixOf_append_left t1 l2 t3 h.2⟩

/-- A contained path in particular starts with the root string. -/
theorem contained_startsWith {root p : String} (h : pathContained root p = true) :
    jsStartsWith p root = true := by
  rw [pathContained, Bool.or_eq_true] at h
  show root.data.isPrefixOf p.data = true
  rcases h with h | h
  · have hp : p = root := by simpa using h
    subst hp
    exact isPrefixOf_refl _
  · rw [String.data_append] at h
    exact isPrefixOf_append_left _ _ _ h

/-! ## Concrete fixtures (the worked example of the repository's own
`pr-content.md`, and small variants) -/

/-- The `tough-cookie` advisory of the repository's worked example. -/
def toughCookieReport : VulnerabilityReport :=
  { source := 1097682
    name := "tough-cookie"
    dependency := "tough-cookie"
    title := "tough-cookie Prototype Pollution vulnerability"
    url := "https://github.com/advisories/GHSA-72xf-g2v4-qvf3"
    severity := Severity.moderate
    cvss := some ⟨65, 1⟩
    range := "<4.1.3" }

/-- The fixable `tough-cookie` vulnerability of the worked example. -/
def toughCookieVul : Vulnerability :=
  { name := "tough-cookie"
    severity := Severity.moderate
    isDirect := false
    fixAvailable := true
    via := [Sum.inr toughCookieReport]
    range := "<4.1.3"
    nodes := ["node_modules/tough-cookie"] }

/-- An audit result holding exactly the worked example's vulnerability. -/
def exampleAudit : NPMAudit :=
  { auditReportVersion := 2
    vulnerabilities := [("tough-cookie", toughCookieVul)]
    metadata := default }

/-- An audit result with an empty vulnerability mapping. -/
def emptyAudit : NPMAudit :=
  { auditReportVersion := 2
    vulnerabilities := []
    metadata := default }

/-! ## Helper lemmas -/

/-- Appending `String`s is appending their character data. -/
theorem string_mk_append (a b : List Char) : String.mk a ++ String.mk b = String.mk (a ++ b) :=
  rfl

/-- Associativity of `String` append. -/
theorem string_append_assoc (a b c : String) : a ++ b ++ c = a ++ (b ++ c) := by
  rcases a with ⟨A⟩; rcases b with ⟨B⟩; rcases c with ⟨C⟩
  show String.mk ((A ++ B) ++ C) = String.mk (A ++ (B ++ C))
  rw [List.append_assoc]

/-- The two string literals of the no-fixable report glue into one. -/
theorem no_fixable_glue (t : String) :
    "# Audit report\n" ++ ("No fixable problems found (" ++ t ++ " unfixable)") =
      "# Audit report\nNo fixable problems found (" ++ t ++ " unfixable)" := by
  apply String.ext
  simp only [String.data_append, List.append_assoc]
  rw [← List.append_assoc "# Audit report\n".data "No fixable problems found (".data]
  congr 1

/-! ## C1 -/

set_option maxRecDepth 8192 in
/-- C1 (code bug): the claim says `formatNpmAuditOutput` returns the Markdown
report whenever a fixable vulnerability exists. On the worked example (one
fixable vulnerability) the source emits the `Found 1 fixable issues` info
line and builds exactly the expected report into its local `output` variable
(`formatBody`), but the function body ends without a `return` statement, so
the resolved value is `undefined` (`none`) instead of the report. -/
theorem c1_missing_return_bug :
    formatNpmAuditOutput exampleAudit =
      ([⟨LogLevel.info, "Found 1 fixable issues"⟩], none) ∧
    formatBody exampleAudit =
      "# Audit report\n\nThis audit fix resolves 1 of the total 1 vulnerabilities found in your project.\n\n## Updated dependencies\n* [tough-cookie](#user-content-tough-cookie)\n## Fixed vulnerabilities\n\n### tough-cookie <a href=\"#user-content-tough-cookie\" id=\"tough-cookie\">#</a>\n* tough-cookie Prototype Pollution vulnerability\n* Severity: **moderate** (CVSS 6.5)\n* Reference: [https://github.com/advisories/GHSA-72xf-g2v4-qvf3](https://github.com/advisories/GHSA-72xf-g2v4-qvf3)\n* Affected versions: <4.1.3\n* Package usage:\n  * `node_modules/tough-cookie`\n" := by
  exact ⟨by decide, by decide⟩

/-! ## C4 -/

/-- C4: when no vulnerability is fixable, `formatNpmAuditOutput` resolves with
exactly `# Audit report\nNo fixable problems found ({total} unfixable)`, where
`{total}` is the size of the vulnerability mapping, and nothing else. -/
theorem c4_no_fixable (data : NPMAudit) (h : ∀ v ∈ vulValues data, v.fixAvailable = false) :
    (formatNpmAuditOutput data).2 =
      some ("# Audit report\nNo fixable problems found (" ++
        toString data.vulnerabilities.length ++ " unfixable)") := by
  have hfil : (vulValues data).filter isFixable = [] := by
    rw [List.filter_eq_nil_iff]
    intro a ha
    simp [isFixable, h a ha]
  have hlen : (vulValues data).length = data.vulnerabilities.length := by
    simp [vulValues]
  simp only [formatNpmAuditOutput, hfil, hlen, List.length_nil, if_pos]
  rw [no_fixable_glue]

/-- C4 witness: on the empty mapping the formatter resolves with exactly
`# Audit report\nNo fixable problems found (0 unfixable)`. -/
theorem c4_no_fixable_witness :
    (formatNpmAuditOutput emptyAudit).2 =
      some "# Audit report\nNo fixable problems found (0 unfixable)" := by
  have h := c4_no_fixable emptyAudit (by intro v hv; simp [vulValues, emptyAudit] at hv)
  rw [h]
  decide

/-! ## C6 -/

/-- C6: the `issues-total` output equals `issues-fixable + issues-unfixable`,
`issues-total` is the size of the vulnerability mapping, and `issues-fixable`
counts the entries with truthy `fixAvailable`. -/
theorem c6_totals (data : NPMAudit) :
    (computeOutputs data).issuesTotal =
      (computeOutputs data).issuesFixable + (computeOutputs data).issuesUnfixable ∧
    (computeOutputs data).issuesTotal = data.vulnerabilities.length ∧
    (computeOutputs data).issuesFixable =
      ((vulValues data).filter (fun v => v.fixAvailable)).length := by
  refine ⟨?_, ?_, rfl⟩
  · have hle : ((vulValues data).filter isFixable).length ≤ (vulValues data).length :=
      List.length_filter_le _ _
    simpa [computeOutputs] using (Nat.add_sub_cancel' hle).symm
  · simp [computeOutputs, vulValues]

/-! ## Helper lemmas about the index/slice model of the scanner -/

/-- A missed character yields no index. -/
theorem chIndexOf?_eq_none {l : List Char} {c : Char} (h : c ∉ l) : chIndexOf? l c = none := by
  induction l with
  | nil => rfl
  | cons a t ih =>
    have hac : ¬ a = c := fun hac => h (hac ▸ List.mem_cons_self a t)
    have hct : c ∉ t := fun hct => h (List.mem_cons_of_mem a hct)
    simp [chIndexOf?, hac, ih hct]

/-- A present character yields an in-range index, and dropping up to it is
dropping the longest brace-free prefix. -/
theorem chIndexOf?_of_mem {l : List Char} {c : Char} (h : c ∈ l) :
    ∃ n, chIndexOf? l c = some n ∧ n < l.length ∧
      l.drop n = l.dropWhile (fun a => a != c) := by
  induction l with
  | nil => cases h
  | cons a t ih =>
    by_cases hac : a = c
    · refine ⟨0, by simp [chIndexOf?, hac], by simp, ?_⟩
      simp [List.dropWhile_cons, hac]
    · have hct : c ∈ t := by
        rcases List.mem_cons.mp h with h1 | h1
        · exact absurd h1.symm hac
        · exact h1
      obtain ⟨n, h1, h2, h3⟩ := ih hct
      refine ⟨n + 1, by simp [chIndexOf?, hac, h1], by simpa using Nat.succ_lt_succ h2, ?_⟩
      simpa [List.dropWhile_cons, hac] using h3

/-- On a string containing a brace, `stripToJson` drops exactly the longest
brace-free prefix. -/
theorem stripToJson_of_mem {s : String} (h : lbrace ∈ s.data) :
    stripToJson s = String.mk (s.data.dropWhile (fun c => c != lbrace)) := by
  obtain ⟨n, h1, h2, h3⟩ := chIndexOf?_of_mem h
  rw [stripToJson, jsIndexOf, h1, jsSlice]
  have hb : (if (n : Int) < 0 then max ((s.data.length : Int) + (n : Int)) 0
      else min (n : Int) (s.data.length : Int)).toNat = n := by
    omega
  rw [hb, h3]

/-- The uniform form of the JS `slice(-1)` start position. -/
theorem slice_neg_one_start (l : List Char) :
    (if (-1 : Int) < 0 then max ((l.length : Int) + -1) 0
      else min (-1 : Int) (l.length : Int)).toNat = l.length - 1 := by
  omega

/-- Dropping all but one element keeps exactly the last element. -/
theorem drop_length_pred : ∀ (l : List Char), l ≠ [] →
    ∃ c, l.getLast? = some c ∧ l.drop (l.length - 1) = [c] := by
  intro l
  induction l with
  | nil => intro h; exact absurd rfl h
  | cons a t ih =>
    intro _
    match t, ih with
    | [], _ => exact ⟨a, rfl, rfl⟩
    | b :: t2, ih =>
      obtain ⟨c, h1, h2⟩ := ih (by simp)
      refine ⟨c, by rw [List.getLast?_cons_cons]; exact h1, ?_⟩
      have hlen : (a :: b :: t2).length - 1 = (b :: t2).length := by simp
      rw [hlen]
      show (b :: t2).drop ((b :: t2).length - 1 + 1 - 1) = [c]
      simpa using h2

/-- JS `s.slice(-1)`: the string of the last character, empty when empty. -/
def jsLastChar (s : String) : String :=
  match s.data.getLast? with
  | some c => String.mk [c]
  | none => ""

/-- On a brace-free string, `stripToJson` keeps only the last character. -/
theorem stripToJson_of_not_mem {s : String} (h : lbrace ∉ s.data) :
    stripToJson s = jsLastChar s := by
  rw [stripToJson, jsIndexOf, chIndexOf?_eq_none h, jsSlice, slice_neg_one_start]
  rcases hd : s.data with _ | ⟨a, t⟩
  · rw [jsLastChar, hd]
    rfl
  · obtain ⟨c, h1, h2⟩ := drop_length_pred (a :: t) (by simp)
    rw [jsLastChar, hd, h1, h2]

/-! ## C2 -/

/-- C2 counterexample: `"abc"` contains no brace, yet `runNpmAudit` resolves
with `"c"` (JS `slice(-1)` keeps only the last character), not with the full
original string. -/
theorem c2_counterexample :
    lbrace ∉ "abc".data ∧
    (runNpmAudit false ⟨none, "abc", ""⟩).2 = Except.ok "c" ∧
    ("c" : String) ≠ "abc" :=
  ⟨by decide, rfl, by decide⟩

/-- C2 (amended): on a brace-free stdout, `runNpmAudit` resolves with just the
last character of stdout (the empty string for empty stdout), because
`indexOf` yields `-1` and `slice(-1)` keeps only the final character. -/
theorem c2_no_brace_last_char (fix : Bool) (res : ExecResult) (he : res.error = none)
    (h : lbrace ∉ res.stdout.data) :
    (runNpmAudit fix res).2 = Except.ok (jsLastChar res.stdout) := by
  simp only [runNpmAudit, he]
  rw [stripToJson_of_not_mem h]

/-- C2 witness: the amended behavior at stdout `"abc"`. -/
theorem c2_no_brace_last_char_witness :
    (runNpmAudit false ⟨none, "abc", ""⟩).2 = Except.ok (jsLastChar "abc") ∧
    jsLastChar "abc" = "c" :=
  ⟨c2_no_brace_last_char false ⟨none, "abc", ""⟩ rfl (by decide), rfl⟩

/-! ## C5 -/

/-- The suffix from the first brace starts with the brace. -/
theorem dropWhile_head_of_mem {l : List Char} (h : lbrace ∈ l) :
    (l.dropWhile (fun c => c != lbrace)).head? = some lbrace := by
  induction l with
  | nil => cases h
  | cons a t ih =>
    by_cases hac : a = lbrace
    · simp [List.dropWhile_cons, hac]
    · have hct : lbrace ∈ t := by
        rcases List.mem_cons.mp h with h1 | h1
        · exact absurd h1.symm hac
        · exact h1
      simpa [List.dropWhile_cons, hac] using ih hct

/-- C5: on a stdout containing a brace, `runNpmAudit` resolves with the suffix
of stdout beginning at the first `{`: stdout splits as a brace-free prefix
followed by the result, and the result starts with `{`. -/
theorem c5_strips_preamble (fix : Bool) (res : ExecResult) (he : res.error = none)
    (h : lbrace ∈ res.stdout.data) :
    (runNpmAudit fix res).2 =
      Except.ok (String.mk (res.stdout.data.dropWhile (fun c => c != lbrace))) ∧
    res.stdout.data = res.stdout.data.takeWhile (fun c => c != lbrace) ++
      res.stdout.data.dropWhile (fun c => c != lbrace) ∧
    lbrace ∉ res.stdout.data.takeWhile (fun c => c != lbrace) ∧
    (res.stdout.data.dropWhile (fun c => c != lbrace)).head? = some lbrace := by
  refine ⟨?_, (List.takeWhile_append_dropWhile _ _).symm, ?_, ?_⟩
  · simp only [runNpmAudit, he]
    rw [stripToJson_of_mem h]
  · intro hmem
    have := List.mem_takeWhile_imp hmem
    simp at this
  · exact dropWhile_head_of_mem h

/-- C5 witness: the spec's worked scanner example, where the two preamble
lines are stripped and exactly the JSON `\x7b\n\x7d` remains. -/
theorem c5_strips_preamble_witness :
    (runNpmAudit false
        ⟨none, "add foo 6.5.4 -> 6.5.5\nadd bar 0.1.0 -> 1.0.0\n\x7b\n\x7d", ""⟩).2 =
      Except.ok "\x7b\n\x7d" := by
  have h := (c5_strips_preamble false
    ⟨none, "add foo 6.5.4 -> 6.5.5\nadd bar 0.1.0 -> 1.0.0\n\x7b\n\x7d", ""⟩
    rfl (by decide)).1
  rw [h]
  rfl

/-! ## C8 -/

/-- C8: on tool failure `runNpmAudit` rejects with exactly the tool's error,
and non-empty stderr is logged at debug level with the fixed `[npm audit]: `
tag on the failure path as on the success path (the log conjunct holds for
every outcome). The source performs a single `exec` call, so no retry exists
in the model by construction. -/
theorem c8_reject_and_log (fix : Bool) (res : ExecResult) :
    (∀ e, res.error = some e → (runNpmAudit fix res).2 = Except.error e) ∧
    (res.stderr ≠ "" →
      (⟨LogLevel.debug, "[npm audit]: " ++ res.stderr⟩ : LogEntry) ∈ (runNpmAudit fix res).1) := by
  constructor
  · intro e he
    simp [runNpmAudit, he]
  · intro hs
    rcases he : res.error with _ | e <;> simp [runNpmAudit, he, hs]

/-- C8 witness: the failing invocation of the repository's own test
(`rejects on error`): error `Some error`, stderr `An error happened`. -/
theorem c8_reject_and_log_witness :
    (runNpmAudit false ⟨some "Some error", "", "An error happened"⟩).2 =
      Except.error "Some error" ∧
    (⟨LogLevel.debug, "[npm audit]: " ++ "An error happened"⟩ : LogEntry) ∈
      (runNpmAudit false ⟨some "Some error", "", "An error happened"⟩).1 :=
  ⟨(c8_reject_and_log false ⟨some "Some error", "", "An error happened"⟩).1 "Some error" rfl,
   (c8_reject_and_log false ⟨some "Some error", "", "An error happened"⟩).2 (by decide)⟩

/-! ## C9 -/

/-- C9: on a fix envelope, `run` logs the four package-count info lines and
computes every output from the envelope's inner audit result — identical to
processing the bare inner audit result. -/
theorem c9_envelope_unwrap (f : NPMAuditFix) :
    (runOnParsed (Sum.inr f)).1 =
      [⟨LogLevel.info, "[npm audit] Added   " ++ toString f.added ++ " packages"⟩,
       ⟨LogLevel.info, "[npm audit] Removed " ++ toString f.removed ++ " packages"⟩,
       ⟨LogLevel.info, "[npm audit] Changed " ++ toString f.changed ++ " packages"⟩,
       ⟨LogLevel.info, "[npm audit] Audited " ++ toString f.audited ++ " packages"⟩] ∧
    (runOnParsed (Sum.inr f)).2 = computeOutputs f.audit ∧
    (runOnParsed (Sum.inr f)).2 = (runOnParsed (Sum.inl f.audit)).2 := by
  exact ⟨rfl, rfl, rfl⟩

/-! ## C3 -/

/-- C3 counterexample: with workspace `/ws` (also the working directory), the
configured output path `../wsevil/f` resolves to `/wsevil/f`, which is not
contained in the workspace root — yet the guard accepts it (the string-prefix
check passes) and the report is written there instead of the run failing. -/
theorem c3_counterexample :
    resolvePathJs "/ws" "../wsevil/f" = "/wsevil/f" ∧
    pathContained (resolvePathJs "/ws" "/ws") (resolvePathJs "/ws" "../wsevil/f") = false ∧
    writeReport "/ws" "/ws" "../wsevil/f" "report" = WriteOutcome.written "/wsevil/f" "report" := by
  refine ⟨by decide, by decide, by decide⟩

/-- C3 (amended): the guard is a string-prefix test, not containment — the
run fails with `Invalid "output-path"` and writes nothing exactly when the
resolved path does not start with the resolved workspace-root string; when it
does start with it (which covers every contained path, but also sibling paths
merely sharing the root as a string prefix) the formatted Markdown is written
verbatim to the resolved path. -/
theorem c3_guard_uses_startsWith (workspace cwd outputPath formatted : String)
    (hne : outputPath ≠ "") :
    (jsStartsWith (resolvePathJs cwd outputPath) (resolvePathJs cwd workspace) = false →
      writeReport workspace cwd outputPath formatted =
        WriteOutcome.failed "Invalid \"output-path\"") ∧
    (jsStartsWith (resolvePathJs cwd outputPath) (resolvePathJs cwd workspace) = true →
      writeReport workspace cwd outputPath formatted =
        WriteOutcome.written (resolvePathJs cwd outputPath) formatted) ∧
    (pathContained (resolvePathJs cwd workspace) (resolvePathJs cwd outputPath) = true →
      writeReport workspace cwd outputPath formatted =
        WriteOutcome.written (resolvePathJs cwd outputPath) formatted) := by
  refine ⟨?_, ?_, ?_⟩ <;> intro h
  · simp [writeReport, hne, h]
  · simp [writeReport, hne, h]
  · simp [writeReport, hne, contained_startsWith h]

/-- C3 witness: a contained output path `out.md` under workspace `/ws` is
accepted and the report is written to `/ws/out.md`. -/
theorem c3_guard_uses_startsWith_witness :
    writeReport "/ws" "/ws" "out.md" "report" = WriteOutcome.written "/ws/out.md" "report" := by
  have h := (c3_guard_uses_startsWith "/ws" "/ws" "out.md" "report" (by decide)).2.2 (by decide)
  rw [h]
  decide

/-! ## C7 and C10: the `via` rendering -/

/-- Whether `pat` occurs as a contiguous run inside a character list. -/
def containsRun (pat : List Char) : List Char → Bool
  | [] => pat.isPrefixOf []
  | c :: rest => pat.isPrefixOf (c :: rest) || containsRun pat rest

/-- A found report entry renders the vulnerability section from that report
alone (besides the name, range and nodes of the vulnerability). -/
theorem renderVul_eq_of_find {vul : Vulnerability} {r : VulnerabilityReport}
    (h : vul.via.find? isReport = some (Sum.inr r)) :
    renderVul vul = vulHeader vul ++ renderInfo r ++ vulTail vul := by
  simp only [renderVul, h]

/-- A vulnerability whose `via` list has an entry with empty title and no
string entries at all: it has no structured report, so the source takes the
`Caused by` branch and renders the non-string entry as `[object Object]`. -/
def emptyTitleReport : VulnerabilityReport :=
  { source := 2
    name := "pkgb"
    dependency := "pkgb"
    title := ""
    url := "https://example.com/adv2"
    severity := Severity.low
    cvss := none
    range := "<2.0.0" }

/-- The fixable vulnerability wrapping `emptyTitleReport`. -/
def emptyTitleVul : Vulnerability :=
  { name := "pkgb"
    severity := Severity.low
    isDirect := false
    fixAvailable := true
    via := [Sum.inr emptyTitleReport]
    range := "<2.0.0"
    nodes := ["node_modules/pkgb"] }

/-- An advisory that carries a CVSS object whose score is `0`. -/
def zeroScoreReport : VulnerabilityReport :=
  { source := 1
    name := "pkga"
    dependency := "pkga"
    title := "Zero score advisory"
    url := "https://example.com/adv"
    severity := Severity.low
    cvss := some ⟨0, 0⟩
    range := "<1.0.0" }

/-- The fixable vulnerability wrapping `zeroScoreReport`. -/
def zeroScoreVul : Vulnerability :=
  { name := "pkga"
    severity := Severity.low
    isDirect := false
    fixAvailable := true
    via := [Sum.inr zeroScoreReport]
    range := "<1.0.0"
    nodes := ["node_modules/pkga"] }

/-- C7 counterexample: (a) a present CVSS score of `0` is falsy, so no
`(CVSS …)` is rendered although the score is present; (b) with no structured
report and no string entry in `via`, the source still renders one bullet for
the non-string entry, coerced to `[object Object]`, where the claim predicts
one bullet per string entry (here: none). -/
theorem c7_counterexample :
    zeroScoreReport.cvss = some ⟨0, 0⟩ ∧
    containsRun "(CVSS".data (renderVul zeroScoreVul).data = false ∧
    emptyTitleVul.via.all Sum.isRight = true ∧
    containsRun "[object Object]".data (renderVul emptyTitleVul).data = true := by
  refine ⟨rfl, by decide, by decide, by decide⟩

/-- C7 (amended): a `via` entry is a structured report iff it is the
non-string alternative with a non-empty `title`. When some entry is a report,
the first such entry alone supplies the description (title; bolded severity
with the warning glyph exactly for `critical`; the CVSS score in parentheses
when present **and nonzero**; the advisory URL as a link whose text and href
coincide — all per `renderInfo`). When no entry is a report, the `Caused by
vulnerable dependency` line is followed by one anchor-linked bullet per entry
of `via` (each coerced to its JS string form), not only per string entry. -/
theorem c7_via_classification (vul : Vulnerability) :
    (∀ v ∈ vul.via, (isReport v = true ↔ ∃ r, v = Sum.inr r ∧ r.title ≠ "")) ∧
    (∀ r : VulnerabilityReport, vul.via.find? isReport = some (Sum.inr r) →
      (∃ pre post, vul.via = pre ++ Sum.inr r :: post ∧ ∀ v ∈ pre, isReport v = false) ∧
      renderVul vul = vulHeader vul ++ renderInfo r ++ vulTail vul) ∧
    (vul.via.find? isReport = none →
      renderVul vul = vulHeader vul ++ causedByBlock vul.via ++ vulTail vul) := by
  refine ⟨?_, ?_, ?_⟩
  · intro v _
    rcases v with s | r
    · simp [isReport]
    · simp [isReport, bne_iff_ne]
  · intro r h
    refine ⟨?_, renderVul_eq_of_find h⟩
    obtain ⟨-, as, bs, hsplit, hpre⟩ := List.find?_eq_some.mp h
    exact ⟨as, bs, hsplit, fun v hv => by simpa using hpre v hv⟩
  · intro h
    simp only [renderVul, h]

/-- C7 witness: the worked example's single-report `via`, where the report is
found first and supplies the description. -/
theorem c7_via_classification_witness :
    renderVul toughCookieVul =
      vulHeader toughCookieVul ++ renderInfo toughCookieReport ++ vulTail toughCookieVul :=
  ((c7_via_classification toughCookieVul).2.1 toughCookieReport (by decide)).2

/-- The worked example's vulnerability with plain-string entries around the
structured report in `via`. -/
def toughCookieNoisyVul : Vulnerability :=
  { toughCookieVul with via := [Sum.inl "foo", Sum.inr toughCookieReport, Sum.inl "bar"] }

/-- C10: when `via` holds a structured report, the plain-string entries of
`via` contribute nothing: the section equals header, first report's
description and tail — so any two vulnerabilities with equal name, range and
nodes whose `via` lists find the same first report render identically,
whatever string entries precede or follow the report. -/
theorem c10_string_entries_invisible (v1 v2 : Vulnerability) (r : VulnerabilityReport)
    (h1 : v1.via.find? isReport = some (Sum.inr r))
    (h2 : v2.via.find? isReport = some (Sum.inr r))
    (hn : v1.name = v2.name) (hr : v1.range = v2.range) (hd : v1.nodes = v2.nodes) :
    renderVul v1 = vulHeader v1 ++ renderInfo r ++ vulTail v1 ∧
    renderVul v1 = renderVul v2 := by
  have e1 := renderVul_eq_of_find h1
  have e2 := renderVul_eq_of_find h2
  refine ⟨e1, ?_⟩
  rw [e1, e2]
  simp only [vulHeader, vulTail, hn, hr, hd]

/-- C10 witness: adding string entries `foo` and `bar` around the worked
example's report leaves the rendered section unchanged. -/
theorem c10_string_entries_invisible_witness :
    renderVul toughCookieVul = renderVul toughCookieNoisyVul :=
  (c10_string_entries_invisible toughCookieVul toughCookieNoisyVul toughCookieReport
    (by decide) (by decide) rfl rfl rfl).2

end NpmAuditAction
